import Mathlib

/-
Verification of the pp-custom-table-component repository: a shallow embedding of
the view-state core of `src/TableGrid/CustomTable.tsx` (the `CustomTable` React
component and the `TableGrid` host class) and `statusUtils` into Lean 4,
together with theorems settling the specification's claims about it.

JavaScript strings are modelled as Lean `String`; `toLowerCase` as a per-char
`Char.toLower` map, `includes` / `startsWith` / `endsWith` as list
infix/prefix/suffix tests on the character data, and `trim` as removal of
leading and trailing whitespace characters.
-/

/-- JS `String.prototype.toLowerCase`, modelled character by character. -/
def jsToLower (s : String) : String := String.mk (s.data.map Char.toLower)

/-- JS `String.prototype.includes`: `pat` occurs contiguously inside `s`. -/
def jsIncludes (s pat : String) : Bool := decide (pat.data <:+: s.data)

/-- JS `String.prototype.startsWith`. -/
def jsStartsWith (s pat : String) : Bool := decide (pat.data <+: s.data)

/-- JS `String.prototype.endsWith`. -/
def jsEndsWith (s pat : String) : Bool := decide (pat.data <:+ s.data)

/-- JS `String.prototype.trim`: drop leading and trailing whitespace. -/
def jsTrim (s : String) : String :=
  String.mk (((s.data.dropWhile Char.isWhitespace).reverse.dropWhile
    Char.isWhitespace).reverse)

/-- A dataset record, exposing `getFormattedValue(columnName)`; a column the
record has no value for yields `none` (JS `undefined`). -/
abbrev EntityRecord := String → Option String

/-- The record store `records: Record<string, EntityRecord>`; ids absent from
the store yield `none`. -/
abbrev RecordStore := String → Option EntityRecord

/-- The `ColumnFilter` interface of `CustomTable.tsx`. -/
structure ColumnFilter where
  columnName : String
  operator : String
  value : String
deriving DecidableEq

/-- The `columnFilters: Map<string, ColumnFilter>` state, as an association
list in insertion order. -/
abbrev FilterMap := List (String × ColumnFilter)

/-- The single-filter comparison of `displayRecordIds` (CustomTable.tsx lines
185-208): case-insensitive comparison of the filter value against
`String(record.getFormattedValue(columnName) || '')`, dispatching on the
operator string with `Contains` as the default branch. -/
def matchesFilter (record : EntityRecord) (columnName : String)
    (filter : ColumnFilter) : Bool :=
  let value := record columnName
  let filterValue := jsToLower filter.value
  let recordValue := jsToLower (value.getD "")
  match filter.operator with
  | "Contains" => jsIncludes recordValue filterValue
  | "Equals" => decide (recordValue = filterValue)
  | "Starts with" => jsStartsWith recordValue filterValue
  | "Ends with" => jsEndsWith recordValue filterValue
  | "Does not contain" => !(jsIncludes recordValue filterValue)
  | _ => jsIncludes recordValue filterValue

/-- The per-id body of the `sortedRecordIds.filter` callback in
`displayRecordIds` (CustomTable.tsx lines 179-214): a missing record fails,
otherwise every active filter must match. -/
def recordPassesFilters (records : RecordStore) (filters : FilterMap)
    (id : String) : Bool :=
  match records id with
  | none => false
  | some record => filters.all fun cf => matchesFilter record cf.1 cf.2

/-- The `displayRecordIds` memo of `CustomTable.tsx` (lines 174-236): filter
`sortedRecordIds` when any column filter is active, then slice out the current
page window `[(currentPage-1)*recordsPerPage, ... + recordsPerPage)`. -/
def displayRecordIds (records : RecordStore) (sortedRecordIds : List String)
    (columnFilters : FilterMap) (currentPage recordsPerPage : Nat) :
    List String :=
  let filteredIds :=
    if columnFilters.length > 0 then
      sortedRecordIds.filter (recordPassesFilters records columnFilters)
    else sortedRecordIds
  let startIndex := (currentPage - 1) * recordsPerPage
  (filteredIds.drop startIndex).take recordsPerPage

/-- Spec-side definition, following the words of the claim: the sequence
obtained by keeping, in their original relative order, the ids that pass the
filter predicate, keeping all ids when the filter mapping is empty. -/
def specFilteredSeq (records : RecordStore) (orderedIds : List String)
    (filters : FilterMap) : List String :=
  if filters = [] then orderedIds
  else orderedIds.filter (recordPassesFilters records filters)

/-- Spec-side definition of the single-filter comparison, following the words
of the claim: case-insensitive on the string form of the cell (missing cell as
empty string); Contains is substring, Equals exact, Starts with / Ends with
prefix/suffix, Does not contain negated substring, anything else as Contains. -/
def specSingleFilter (record : EntityRecord) (columnName : String)
    (filter : ColumnFilter) : Bool :=
  let cell := jsToLower ((record columnName).getD "")
  let fv := jsToLower filter.value
  if filter.operator = "Equals" then decide (cell = fv)
  else if filter.operator = "Starts with" then jsStartsWith cell fv
  else if filter.operator = "Ends with" then jsEndsWith cell fv
  else if filter.operator = "Does not contain" then !(jsIncludes cell fv)
  else jsIncludes cell fv

/-- The record store of the spec's filtering scenario: Status values
`active`, `Inactive`, `pending` for ids `A`, `B`, `C`. -/
def scenarioRecords : RecordStore := fun id =>
  if id = "A" then some (fun c => if c = "Status" then some "active" else none)
  else if id = "B" then
    some (fun c => if c = "Status" then some "Inactive" else none)
  else if id = "C" then
    some (fun c => if c = "Status" then some "pending" else none)
  else none

/-- The filter mapping of the spec's filtering scenario:
`Status Contains "activ"`. -/
def scenarioFilters : FilterMap :=
  [("Status", { columnName := "Status", operator := "Contains",
                value := "activ" })]

/-- The sort state of the `TableGrid` host class: `currentSortColumn` and
`currentSortDirection` (0 = None, 1 = Ascending, -1 = Descending). -/
structure SortState where
  column : Option String
  direction : Int
deriving DecidableEq

/-- The sort-state part of `TableGrid.onSort` (CustomTable.tsx lines 941-960):
same column cycles Ascending to Descending to None (clearing the column),
any other column starts at Ascending. -/
def onSortState (s : SortState) (columnName : String) : SortState :=
  if s.column = some columnName then
    if s.direction = 1 then { s with direction := -1 }
    else if s.direction = -1 then { column := none, direction := 0 }
    else { s with direction := 1 }
  else { column := some columnName, direction := 1 }

/-- The initial sort state of `TableGrid` (CustomTable.tsx lines 822-823):
`currentSortColumn = null`, `currentSortDirection = 1`. -/
def initialSortState : SortState := { column := none, direction := 1 }

/-- The sort state written by the refresh branch of `TableGrid.updateView`
(CustomTable.tsx lines 1149-1150): `currentSortColumn = null`,
`currentSortDirection = 1`. -/
def refreshSortState : SortState := { column := none, direction := 1 }

/-- The sort states the component can reach: the initial state, closed under
sort requests and the refresh reset. -/
inductive ReachableSort : SortState → Prop where
  | init : ReachableSort initialSortState
  | step : ∀ {s : SortState} (c : String), ReachableSort s →
      ReachableSort (onSortState s c)
  | refresh : ∀ {s : SortState}, ReachableSort s → ReachableSort refreshSortState

/-- The four navigation directions of `TableGrid.onNavigate`. -/
inductive NavDirection where
  | next
  | previous
  | first
  | last
deriving DecidableEq

/-- The host paging calls `TableGrid.onNavigate` can issue. -/
inductive PagingCall where
  | loadNextPage
  | loadPreviousPage
  | reset
deriving DecidableEq

/-- The `while (paging.hasNextPage && pagesLoaded < 100)` loop of the `last`
branch of `TableGrid.onNavigate` (CustomTable.tsx lines 911-915). The host
cursor is modelled by `pagesAhead`, the number of pages still ahead of the
loaded window: `paging.hasNextPage` is true iff it is positive and each
`loadNextPage` decrements it. Returns the calls issued. -/
def lastPageLoop : Nat → Nat → List PagingCall
  | 0, _ => []
  | n + 1, pagesLoaded =>
    if pagesLoaded < 100 then
      PagingCall.loadNextPage :: lastPageLoop n (pagesLoaded + 1)
    else []

/-- JS `Math.ceil(a / b)` for natural `a` and positive `b`. -/
def jsCeilDiv (a b : Nat) : Nat := (a + b - 1) / b

/-- `TableGrid.onNavigate` (CustomTable.tsx lines 862-928), over the
`currentPage` field and the modelled host cursor `pagesAhead`; returns the new
`currentPage` together with the host paging calls issued. `totalRecordCount`
is the host-reported or estimated total used for `totalPages`. -/
def onNavigate (direction : NavDirection) (currentPage pageSize : Nat)
    (totalRecordCount : Int) (pagesAhead : Nat) : Nat × List PagingCall :=
  let totalPages : Nat :=
    if 0 < totalRecordCount then jsCeilDiv totalRecordCount.toNat pageSize
    else 1
  let hasNext := 0 < pagesAhead
  let hasPrevious := 1 < currentPage
  match direction with
  | NavDirection.next =>
    if hasNext then (currentPage + 1, [PagingCall.loadNextPage])
    else (currentPage, [])
  | NavDirection.previous =>
    if hasPrevious then (currentPage - 1, [PagingCall.loadPreviousPage])
    else (currentPage, [])
  | NavDirection.first =>
    if currentPage ≠ 1 then (1, [PagingCall.reset]) else (currentPage, [])
  | NavDirection.last => (totalPages, lastPageLoop pagesAhead 0)

/-- JS `Map.prototype.set` on the filter mapping: replace the entry in place
when the key exists, otherwise append (insertion order preserved). -/
def mapSet (m : FilterMap) (k : String) (v : ColumnFilter) : FilterMap :=
  if m.any (fun e => e.1 == k) then
    m.map (fun e => if e.1 = k then (k, v) else e)
  else m ++ [(k, v)]

/-- The filter-popup local state of `CustomTable`: `openFilterColumn`,
`tempFilterOperator`, `tempFilterValue`. -/
structure FilterPopupState where
  openFilterColumn : Option String
  tempFilterOperator : String
  tempFilterValue : String

/-- `handleApplyFilter` (CustomTable.tsx lines 247-259): when a popup is open
and the trimmed value is non-empty, store the filter with the trimmed value;
in every case close the popup. Returns the new filter mapping and the new
`openFilterColumn`. -/
def handleApplyFilter (st : FilterPopupState) (filters : FilterMap) :
    FilterMap × Option String :=
  match st.openFilterColumn with
  | some col =>
    if jsTrim st.tempFilterValue ≠ "" then
      (mapSet filters col
        { columnName := col, operator := st.tempFilterOperator,
          value := jsTrim st.tempFilterValue }, none)
    else (filters, none)
  | none => (filters, none)

/-- Every stored filter value is free of leading/trailing whitespace. -/
def FilterMapTrimmed (m : FilterMap) : Prop :=
  ∀ e ∈ m, jsTrim e.2.value = e.2.value

/-- The `TableGrid` host-class state touched by the refresh branch of
`updateView` (CustomTable.tsx lines 1133-1164). Link records are tracked by
their record ids. -/
structure GridHostState where
  selectedRecordIds : List String
  selectedLinkRecordIds : List String
  currentPage : Nat
  currentSortColumn : Option String
  currentSortDirection : Int
  previousRefreshValue : Bool
deriving DecidableEq

/-- The `CustomTable` component-local state cleared by its refresh effect
(CustomTable.tsx lines 124-148). -/
structure LocalViewState where
  columnFilters : FilterMap
  openFilterColumn : Option String
  tempFilterOperator : String
  tempFilterValue : String
  columnWidths : List (String × Nat)
  resizingColumn : Option String
  resizeStartX : Int
  resizeStartWidth : Int
deriving DecidableEq

/-- The refresh branch of `TableGrid.updateView` (lines 1133-1164): on
`isTableRefresh && !previousRefreshValue` clear selections, reset the page and
the sort state; always record the new `previousRefreshValue`. -/
def updateViewRefresh (isTableRefresh : Bool) (g : GridHostState) :
    GridHostState :=
  let g1 :=
    if isTableRefresh ∧ g.previousRefreshValue = false then
      { g with selectedRecordIds := [], selectedLinkRecordIds := [],
               currentPage := 1, currentSortColumn := none,
               currentSortDirection := 1 }
    else g
  { g1 with previousRefreshValue := isTableRefresh }

/-- The cleared `LocalViewState` written by the `CustomTable` refresh effect
(lines 124-148). -/
def clearedLocalViewState : LocalViewState :=
  { columnFilters := [], openFilterColumn := none,
    tempFilterOperator := "Contains", tempFilterValue := "",
    columnWidths := [], resizingColumn := none, resizeStartX := 0,
    resizeStartWidth := 0 }

/-- The `CustomTable` refresh effect (lines 124-148): it has dependency list
`[isTableRefresh]`, so it runs only when that prop changed since the last
render, and its body acts only when the prop is true. -/
def refreshEffect (isTableRefresh propChanged : Bool) (t : LocalViewState) :
    LocalViewState :=
  if propChanged ∧ isTableRefresh then clearedLocalViewState else t

/-- One `updateView` call and the React commit that follows it, as the list of
(host state, component-local state) pairs that get rendered, in order.
React runs an effect with dependency `[isTableRefresh]` after the render in
which the prop changed, so when the prop changes the old local state is
rendered once before the effect clears it and a second render happens. -/
def refreshRenderSequence (isTableRefresh : Bool) (g : GridHostState)
    (t : LocalViewState) : List (GridHostState × LocalViewState) :=
  let propChanged := isTableRefresh != g.previousRefreshValue
  let g2 := updateViewRefresh isTableRefresh g
  let t2 := refreshEffect isTableRefresh propChanged t
  if propChanged then [(g2, t), (g2, t2)] else [(g2, t)]

/-- The `StatusStyle` interface of statusUtils. -/
structure StatusStyle where
  icon : String
deriving DecidableEq

/-- The `STATUS_DEFINITIONS` table of statusUtils: category name to list of
(status value, icon), in source order. -/
def STATUS_DEFINITIONS : List (String × List (String × StatusStyle)) :=
  [("generalStatus",
    [("Active", { icon := "✓" }), ("Inactive", { icon := "○" }),
     ("Enabled", { icon := "✓" }), ("Disabled", { icon := "✗" }),
     ("Online", { icon := "●" }), ("Offline", { icon := "○" })]),
   ("operationStatus",
    [("Success", { icon := "✓" }), ("Failed", { icon := "✗" }),
     ("Error", { icon := "⚠" }), ("Warning", { icon := "⚠" }),
     ("Info", { icon := "ℹ" })]),
   ("progressStatus",
    [("Not Started", { icon := "○" }), ("In Progress", { icon := "⟳" }),
     ("Pending", { icon := "⏸" }), ("Completed", { icon := "✓" }),
     ("On Hold", { icon := "⏸" }), ("Cancelled", { icon := "✗" }),
     ("Paused", { icon := "⏸" })]),
   ("approvalStatus",
    [("Approved", { icon := "✓" }), ("Rejected", { icon := "✗" }),
     ("Under Review", { icon := "👁" }), ("Draft", { icon := "📝" }),
     ("Submitted", { icon := "📤" }), ("Pending Approval", { icon := "⏳" })]),
   ("priorityStatus",
    [("Critical", { icon := "🔴" }), ("High", { icon := "⬆" }),
     ("Medium", { icon := "➡" }), ("Low", { icon := "⬇" }),
     ("Urgent", { icon := "⚡" })]),
   ("paymentStatus",
    [("Paid", { icon := "✓" }), ("Unpaid", { icon := "✗" }),
     ("Pending", { icon := "⏳" }), ("Overdue", { icon := "⚠" }),
     ("Refunded", { icon := "↩" }), ("Partial", { icon := "◐" })]),
   ("orderStatus",
    [("New", { icon := "🆕" }), ("Processing", { icon := "⚙" }),
     ("Shipped", { icon := "📦" }), ("Delivered", { icon := "✓" }),
     ("Returned", { icon := "↩" }), ("Cancelled", { icon := "✗" })]),
   ("membershipStatus",
    [("Trial", { icon := "🔓" }), ("Active", { icon := "✓" }),
     ("Expired", { icon := "✗" }), ("Suspended", { icon := "⏸" }),
     ("Cancelled", { icon := "○" })])]

/-- The category scan of `getStatusStyle` (statusUtils lines 95-108): per
category, try an exact key match first, then a case-insensitive key match,
then move to the next category. -/
def lookupStatus (normalizedValue : String) :
    List (String × List (String × StatusStyle)) → Option StatusStyle
  | [] => none
  | (_, category) :: rest =>
    match category.find? (fun e => e.1 == normalizedValue) with
    | some e => some e.2
    | none =>
      match category.find?
          (fun e => jsToLower e.1 == jsToLower normalizedValue) with
      | some e => some e.2
      | none => lookupStatus normalizedValue rest

/-- `getStatusStyle` (statusUtils lines 88-111): empty value short-circuits to
null, otherwise the trimmed value is looked up across all categories. -/
def getStatusStyle (statusValue : String) : Option StatusStyle :=
  if statusValue = "" then none
  else lookupStatus (jsTrim statusValue) STATUS_DEFINITIONS

/-- The keyword list of `isStatusColumn` (statusUtils lines 150-158). -/
def statusKeywords : List String :=
  ["status", "state", "stage", "priority", "approval", "progress",
   "condition"]

/-- `isStatusColumn` (statusUtils lines 146-161): the lower-cased column name
must contain one of the status keywords. -/
def isStatusColumn (columnName : String) : Bool :=
  if columnName = "" then false
  else statusKeywords.any (fun kw => jsIncludes (jsToLower columnName) kw)

/-- The status-cell classification of `CustomTable` (CustomTable.tsx lines
664-665): only eligible columns attempt the icon lookup. -/
def classify (columnName cellValue : String) : Option StatusStyle :=
  if isStatusColumn columnName then getStatusStyle cellValue else none

/-- A record serialized for output: ordered field name/value pairs
(`recordId` plus the formatted column values). -/
abbrev RecordJson := List (String × String)

/-- JSON string quoting; the claims do not exercise escape sequences, so only
the quote and backslash characters are escaped. -/
def jsonQuote (s : String) : String :=
  "\"" ++ String.join (s.data.map (fun c =>
    if c = '"' then "\\\"" else if c = '\\' then "\\\\"
    else String.mk [c])) ++ "\""

/-- JSON.stringify of one record object. -/
def jsonObject (r : RecordJson) : String :=
  "\x7b" ++ String.intercalate ","
    (r.map (fun kv => jsonQuote kv.1 ++ ":" ++ jsonQuote kv.2)) ++ "\x7d"

/-- JSON.stringify of a list of record objects. -/
def jsonStringifyRecords (rs : List RecordJson) : String :=
  "[" ++ String.intercalate "," (rs.map jsonObject) ++ "]"

/-- The `IOutputs` record returned by `TableGrid.getOutputs`. -/
structure TableOutputs where
  SelectedRecordIds : String
  SelectedLinkRecords : String
deriving DecidableEq

/-- `TableGrid.getOutputs` (CustomTable.tsx lines 1289-1313): each output is
the JSON serialization of its list when non-empty and the empty string
otherwise. -/
def getOutputs (selectedRecordObjects selectedLinkRecords : List RecordJson) :
    TableOutputs :=
  { SelectedRecordIds :=
      if selectedRecordObjects.length > 0 then
        jsonStringifyRecords selectedRecordObjects
      else "",
    SelectedLinkRecords :=
      if selectedLinkRecords.length > 0 then
        jsonStringifyRecords selectedLinkRecords
      else "" }

/-- The `GridHostState` written by the refresh branch of `updateView`:
selections emptied, page 1, sort reset to (null, 1), refresh flag recorded. -/
def clearedGridHostState : GridHostState :=
  { selectedRecordIds := [], selectedLinkRecordIds := [], currentPage := 1,
    currentSortColumn := none, currentSortDirection := 1,
    previousRefreshValue := true }

/-- A concrete pre-refresh host state: a selection, page 2 and an active
descending sort on Name. -/
def gridRefreshExample : GridHostState :=
  { selectedRecordIds := ["A"], selectedLinkRecordIds := [], currentPage := 2,
    currentSortColumn := some "Name", currentSortDirection := -1,
    previousRefreshValue := false }

/-- A concrete pre-refresh component-local state: one active filter and one
resized column. -/
def localRefreshExample : LocalViewState :=
  { columnFilters := scenarioFilters, openFilterColumn := none,
    tempFilterOperator := "Contains", tempFilterValue := "",
    columnWidths := [("Name", 200)], resizingColumn := none,
    resizeStartX := 0, resizeStartWidth := 0 }

/-- C1: the view window is the page slice of the stably filtered sequence. -/
theorem displayRecordIds_is_page_slice (records : RecordStore)
    (ids : List String) (filters : FilterMap) (p s : Nat) (hp : 1 ≤ p) :
    displayRecordIds records ids filters p s
        = ((specFilteredSeq records ids filters).drop ((p - 1) * s)).take s
    ∧ (displayRecordIds records ids filters p s).Sublist ids
    ∧ (displayRecordIds records ids filters p s).length ≤ s
    ∧ ((specFilteredSeq records ids filters).length ≤ (p - 1) * s →
        displayRecordIds records ids filters p s = []) := by
  have hmain : displayRecordIds records ids filters p s
      = ((specFilteredSeq records ids filters).drop ((p - 1) * s)).take s := by
    cases filters with
    | nil => simp [displayRecordIds, specFilteredSeq]
    | cons a t => simp [displayRecordIds, specFilteredSeq]
  refine ⟨hmain, ?_, ?_, ?_⟩
  · rw [hmain]
    refine List.Sublist.trans (List.take_sublist _ _)
      (List.Sublist.trans (List.drop_sublist _ _) ?_)
    cases filters with
    | nil => simp [specFilteredSeq]
    | cons a t => simp [specFilteredSeq]
  · rw [hmain]
    exact le_trans (List.length_take_le _ _) le_rfl
  · intro hlen
    rw [hmain]
    have : (specFilteredSeq records ids filters).drop ((p - 1) * s) = [] :=
      List.drop_eq_nil_of_le hlen
    rw [this, List.take_nil]

/-- Witness for C1 at the spec's pagination scenario: five filtered ids, page
size 2, page 3 yield the one-element last page. -/
theorem displayRecordIds_is_page_slice_witness :
    displayRecordIds (fun _ => none) ["a", "b", "c", "d", "e"] [] 3 2 = ["e"]
    ∧ (displayRecordIds (fun _ => none) ["a", "b", "c", "d", "e"] [] 3
        2).Sublist ["a", "b", "c", "d", "e"] := by
  have h := displayRecordIds_is_page_slice (fun _ => none)
    ["a", "b", "c", "d", "e"] [] 3 2 (by decide)
  exact ⟨by decide, h.2.1⟩

/-- C2: for a record present in the store, the filter predicate is the
conjunction over all active filters of the spec's case-insensitive
single-filter comparison, and every operator string outside the five known
ones behaves exactly as Contains. -/
theorem filterPredicate_matches_spec (records : RecordStore)
    (filters : FilterMap) (id : String) (r : EntityRecord)
    (h : records id = some r) :
    (recordPassesFilters records filters id = true ↔
      ∀ cf ∈ filters, specSingleFilter r cf.1 cf.2 = true)
    ∧ (∀ (cn : String) (f : ColumnFilter),
        matchesFilter r cn f = specSingleFilter r cn f)
    ∧ (∀ (cn : String) (f : ColumnFilter),
        f.operator ∉ (["Contains", "Equals", "Starts with", "Ends with",
          "Does not contain"] : List String) →
        matchesFilter r cn f
          = matchesFilter r cn { f with operator := "Contains" }) := by
  have hm : ∀ (cn : String) (f : ColumnFilter),
      matchesFilter r cn f = specSingleFilter r cn f := by
    intro cn f
    unfold matchesFilter specSingleFilter
    split <;> simp_all
  refine ⟨?_, hm, ?_⟩
  · unfold recordPassesFilters
    rw [h]
    simp only [List.all_eq_true, hm]
  · intro cn f hop
    simp only [List.mem_cons, List.not_mem_nil, or_false, not_or] at hop
    obtain ⟨h1, h2, h3, h4, h5⟩ := hop
    rw [hm, hm]
    unfold specSingleFilter
    simp [h2, h3, h4, h5]

/-- Witness for C2 at the spec's filtering scenario: the `Status Contains
"activ"` filter keeps A (`active`) and B (`Inactive`) and drops C
(`pending`). -/
theorem filterPredicate_matches_spec_witness :
    List.filter (recordPassesFilters scenarioRecords scenarioFilters)
        ["A", "B", "C"] = ["A", "B"]
    ∧ (recordPassesFilters scenarioRecords scenarioFilters "C" = true ↔
        ∀ cf ∈ scenarioFilters,
          specSingleFilter
            (fun c => if c = "Status" then some "pending" else none)
            cf.1 cf.2 = true) := by
  have h := filterPredicate_matches_spec scenarioRecords scenarioFilters "C"
    (fun c => if c = "Status" then some "pending" else none) rfl
  exact ⟨by decide, h.1⟩

/-- C3 counterexample: with an empty filter mapping, an id whose record is
absent from the store still appears in the derived view window, so the
exclusion is not unconditional. -/
theorem absentRecord_counterexample :
    "x" ∈ displayRecordIds (fun _ => none) ["x"] [] 1 10
    ∧ (fun _ => (none : Option EntityRecord)) "x" = none :=
  ⟨by decide, rfl⟩

/-- C3 amended: whenever the filter mapping is non-empty, an id whose record
is absent from the store never appears in the derived view window, and the
absence is an ordinary exclusion. -/
theorem absentRecord_excluded_under_active_filters (records : RecordStore)
    (ids : List String) (filters : FilterMap) (p s : Nat) (id : String)
    (hf : filters ≠ []) (hid : records id = none) :
    id ∉ displayRecordIds records ids filters p s := by
  intro hmem
  have hlen : filters.length > 0 := by
    cases filters with
    | nil => exact absurd rfl hf
    | cons a t => simp
  have hform : displayRecordIds records ids filters p s
      = ((ids.filter (recordPassesFilters records filters)).drop
          ((p - 1) * s)).take s := by
    unfold displayRecordIds
    simp [hlen]
  rw [hform] at hmem
  have h1 : id ∈ ids.filter (recordPassesFilters records filters) :=
    ((List.take_sublist _ _).trans (List.drop_sublist _ _)).subset hmem
  have h2 := (List.mem_filter.mp h1).2
  have h3 : recordPassesFilters records filters id = false := by
    unfold recordPassesFilters
    rw [hid]
  rw [h3] at h2
  exact Bool.false_ne_true h2

/-- Witness for C3 amended: an absent record is excluded once a filter is
active. -/
theorem absentRecord_excluded_witness :
    "x" ∉ displayRecordIds (fun _ => none) ["x"] scenarioFilters 1 10 :=
  absentRecord_excluded_under_active_filters (fun _ => none) ["x"]
    scenarioFilters 1 10 "x" (by decide) rfl

/-- C4 counterexample: from the sort state (Other, Ascending) three
consecutive sort requests on column Name end in the cleared state, not the
starting state, so three requests on one column do not return every starting
state to itself. -/
theorem sortCycle_counterexample :
    onSortState (onSortState (onSortState
        { column := some "Other", direction := 1 } "Name") "Name") "Name"
      ≠ { column := some "Other", direction := 1 } := by decide

/-- C4 amended: the three-state transition table holds as claimed, and three
consecutive requests on column c restore the state exactly when the state
already has column c active (Ascending or Descending) or is the cleared
state; from the component's unsorted initial state (column null, direction
Ascending) three requests end in the cleared state (column null, direction
None). -/
theorem onSort_cycle_amended (s : SortState) (c : String) :
    (s.column ≠ some c →
      onSortState s c = { column := some c, direction := 1 })
    ∧ (s.column = some c → s.direction = 1 →
        onSortState s c = { column := some c, direction := -1 })
    ∧ (s.column = some c → s.direction = -1 →
        onSortState s c = { column := none, direction := 0 })
    ∧ (onSortState (onSortState (onSortState s c) c) c = s ↔
        (s.column = some c ∧ (s.direction = 1 ∨ s.direction = -1))
        ∨ s = { column := none, direction := 0 })
    ∧ (¬((s.column = some c ∧ (s.direction = 1 ∨ s.direction = -1))
        ∨ s = { column := none, direction := 0 }) →
        onSortState (onSortState (onSortState s c) c) c
          = { column := none, direction := 0 })
    ∧ onSortState (onSortState (onSortState initialSortState c) c) c
        = { column := none, direction := 0 } := by
  obtain ⟨col, dir⟩ := s
  have hcycle : onSortState (onSortState (onSortState ⟨col, dir⟩ c) c) c
      = if col = some c ∧ (dir = 1 ∨ dir = -1) then ⟨col, dir⟩
        else { column := none, direction := 0 } := by
    by_cases hc : col = some c
    · by_cases h1 : dir = 1
      · subst hc; subst h1
        simp [onSortState]
      · by_cases h2 : dir = -1
        · subst hc; subst h2
          simp [onSortState]
        · subst hc
          simp [onSortState, h1, h2]
    · simp [onSortState, hc]
  refine ⟨?_, ?_, ?_, ?_, ?_, ?_⟩
  · intro h
    simp [onSortState, h]
  · intro h1 h2
    simp only at h1 h2
    subst h1; subst h2
    simp [onSortState]
  · intro h1 h2
    simp only at h1 h2
    subst h1; subst h2
    simp [onSortState]
  · rw [hcycle]
    by_cases hcond : col = some c ∧ (dir = 1 ∨ dir = -1)
    · rw [if_pos hcond]
      exact iff_of_true rfl (Or.inl hcond)
    · rw [if_neg hcond]
      constructor
      · intro h
        exact Or.inr h.symm
      · rintro (h | h)
        · exact absurd h hcond
        · exact h.symm
  · intro h
    simp only at h
    rw [hcycle, if_neg (fun hcond => h (Or.inl hcond))]
  · simp [onSortState, initialSortState]

/-- Witness for C4 amended: the cycle restores (Name, Ascending), any other
state such as (Other, Ascending) is sent to the cleared state by three
requests on Name, and from the initial state three requests on Name end
cleared. -/
theorem onSort_cycle_amended_witness :
    onSortState (onSortState (onSortState
        { column := some "Name", direction := 1 } "Name") "Name") "Name"
      = { column := some "Name", direction := 1 }
    ∧ onSortState (onSortState (onSortState
        { column := some "Other", direction := 1 } "Name") "Name") "Name"
      = { column := none, direction := 0 }
    ∧ onSortState (onSortState (onSortState initialSortState "Name") "Name")
        "Name" = { column := none, direction := 0 } := by
  have h1 := onSort_cycle_amended { column := some "Name", direction := 1 }
    "Name"
  have h2 := onSort_cycle_amended { column := some "Other", direction := 1 }
    "Name"
  exact ⟨h1.2.2.2.1.mpr (Or.inl ⟨rfl, Or.inl rfl⟩),
    h2.2.2.2.2.1 (by decide), h1.2.2.2.2.2⟩

/-- C5 counterexample: the initial state is reachable, its sorted column is
null, yet its direction is Ascending (1), not None (0), so the claimed iff
fails in a reachable state. -/
theorem sortInvariant_counterexample :
    ReachableSort initialSortState ∧ initialSortState.column = none
    ∧ initialSortState.direction ≠ 0 :=
  ⟨ReachableSort.init, rfl, by decide⟩

/-- C5 amended: every state produced by a sort request satisfies the iff
(column null exactly when direction None), and in every reachable state the
weaker direction holds: direction None implies column null. The initial and
refresh-reset states have column null with direction Ascending. -/
theorem sortInvariant_amended :
    (∀ (s : SortState) (c : String),
      ((onSortState s c).column = none ↔ (onSortState s c).direction = 0))
    ∧ ∀ s : SortState, ReachableSort s → s.direction = 0 →
        s.column = none := by
  have hstep : ∀ (s : SortState) (c : String),
      ((onSortState s c).column = none ↔ (onSortState s c).direction = 0) := by
    intro s c
    obtain ⟨col, dir⟩ := s
    unfold onSortState
    split_ifs <;> simp_all
  refine ⟨hstep, ?_⟩
  intro s hs
  induction hs with
  | init =>
    intro h
    simp [initialSortState] at h
  | step c hs ih => exact fun h => (hstep _ c).mpr h
  | refresh hs ih =>
    intro h
    simp [refreshSortState] at h

/-- Witness for C5 amended: the reachable cleared state, produced by three
sort requests, has direction None and column null. -/
theorem sortInvariant_amended_witness :
    (onSortState (onSortState (onSortState initialSortState "Name") "Name")
        "Name").column = none := by
  have hr : ReachableSort (onSortState (onSortState (onSortState
      initialSortState "Name") "Name") "Name") :=
    ReachableSort.step "Name" (ReachableSort.step "Name"
      (ReachableSort.step "Name" ReachableSort.init))
  exact sortInvariant_amended.2 _ hr (by decide)

/-- C6 counterexample: a `last` request with no next page available
(pagesAhead = 0) issues no host paging call, yet still overwrites
`currentPage` with the page count recomputed from the total record count:
from page 2 with totalRecordCount 25 and page size 10 it jumps to page 3. -/
theorem onNavigate_last_counterexample :
    onNavigate NavDirection.last 2 10 25 0 = (3, [])
    ∧ (onNavigate NavDirection.last 2 10 25 0).1 ≠ 2 := by decide

/-- C6 amended: `next` with no next page, `previous` on page 1 and `first` on
page 1 are no-ops that keep `currentPage` and issue no host paging call;
`last` with no next page also issues no host call but unconditionally sets
`currentPage` to the page count computed from the total record count, so it
keeps `currentPage` only when that count already equals it. -/
theorem onNavigate_noop_amended (p s : Nat) (t : Int) (ahead : Nat) :
    (ahead = 0 → onNavigate NavDirection.next p s t ahead = (p, []))
    ∧ (p = 1 → onNavigate NavDirection.previous p s t ahead = (p, []))
    ∧ (p = 1 → onNavigate NavDirection.first p s t ahead = (p, []))
    ∧ (ahead = 0 → onNavigate NavDirection.last p s t ahead
        = ((if 0 < t then jsCeilDiv t.toNat s else 1), [])) := by
  refine ⟨?_, ?_, ?_, ?_⟩ <;> intro h <;> subst h <;>
    simp [onNavigate, lastPageLoop]

/-- Witness for C6 amended at page 1 with no next page and total 25, page
size 10: the three no-ops hold and `last` recomputes page 3. -/
theorem onNavigate_noop_amended_witness :
    onNavigate NavDirection.next 1 10 25 0 = (1, [])
    ∧ onNavigate NavDirection.previous 1 10 25 0 = (1, [])
    ∧ onNavigate NavDirection.first 1 10 25 0 = (1, [])
    ∧ onNavigate NavDirection.last 1 10 25 0 = (3, []) := by
  have h := onNavigate_noop_amended 1 10 25 0
  refine ⟨h.1 rfl, h.2.1 rfl, h.2.2.1 rfl, ?_⟩
  rw [h.2.2.2 rfl]
  decide

/-- Dropping with the same predicate twice drops exactly once. -/
theorem dropWhile_dropWhile_eq {α : Type} (p : α → Bool) (l : List α) :
    (l.dropWhile p).dropWhile p = l.dropWhile p := by
  induction l with
  | nil => rfl
  | cons a t ih =>
    by_cases h : p a
    · simp [List.dropWhile_cons, h, ih]
    · simp [List.dropWhile_cons, h]

/-- The head surviving a dropWhile fails the predicate. -/
theorem head?_dropWhile_false {α : Type} (p : α → Bool) (l : List α) (x : α)
    (h : (l.dropWhile p).head? = some x) : p x = false := by
  have h2 := List.head?_dropWhile_not p l
  rw [h] at h2
  exact h2

/-- dropWhile is the identity when the head already fails the predicate. -/
theorem dropWhile_eq_self_of_head {α : Type} (p : α → Bool) (l : List α)
    (h : ∀ x, l.head? = some x → p x = false) : l.dropWhile p = l := by
  cases l with
  | nil => rfl
  | cons a t => simp [List.dropWhile_cons, h a rfl]

/-- Trimming the right end of a left-trimmed list leaves its head failing the
whitespace predicate, so a second left trim is the identity. -/
theorem jsTrim_left_stable (l : List Char) :
    ((((l.dropWhile Char.isWhitespace).reverse.dropWhile
        Char.isWhitespace).reverse).dropWhile Char.isWhitespace)
      = ((l.dropWhile Char.isWhitespace).reverse.dropWhile
          Char.isWhitespace).reverse := by
  apply dropWhile_eq_self_of_head
  intro x hx
  rw [List.head?_reverse] at hx
  obtain ⟨t, ht⟩ := List.dropWhile_suffix
    (l := (l.dropWhile Char.isWhitespace).reverse) Char.isWhitespace
  have h2 : (l.dropWhile Char.isWhitespace).reverse.getLast? = some x := by
    rw [← ht, List.getLast?_append, hx]
    rfl
  rw [List.getLast?_reverse] at h2
  exact head?_dropWhile_false _ _ _ h2

/-- JS trim is idempotent. -/
theorem jsTrim_idem (s : String) : jsTrim (jsTrim s) = jsTrim s := by
  apply String.ext
  show ((((((s.data.dropWhile Char.isWhitespace).reverse.dropWhile
      Char.isWhitespace).reverse).dropWhile Char.isWhitespace).reverse.dropWhile
      Char.isWhitespace).reverse)
    = ((s.data.dropWhile Char.isWhitespace).reverse.dropWhile
        Char.isWhitespace).reverse
  rw [jsTrim_left_stable, List.reverse_reverse]
  exact jsTrim_left_stable s.data

/-- Unfolding `mapSet` one entry at a time. -/
theorem mapSet_cons (a : String × ColumnFilter) (t : FilterMap) (k : String)
    (v : ColumnFilter) :
    mapSet (a :: t) k v
      = if a.1 = k then
          (k, v) :: t.map (fun e => if e.1 = k then (k, v) else e)
        else a :: mapSet t k v := by
  by_cases hk : a.1 = k
  · simp [mapSet, hk]
  · by_cases ht : t.any (fun x => x.1 == k)
    · simp [mapSet, hk, ht]
    · simp [mapSet, hk, ht]

/-- Every entry of `mapSet m k v` is an old entry or the new one. -/
theorem mem_mapSet (m : FilterMap) (k : String) (v : ColumnFilter)
    (e : String × ColumnFilter) (he : e ∈ mapSet m k v) :
    e ∈ m ∨ e = (k, v) := by
  induction m with
  | nil =>
    simp [mapSet] at he
    right
    exact he
  | cons a t ih =>
    rw [mapSet_cons] at he
    by_cases hk : a.1 = k
    · rw [if_pos hk] at he
      rcases List.mem_cons.mp he with h1 | h1
      · right; exact h1
      · obtain ⟨o, ho, hoe⟩ := List.mem_map.mp h1
        by_cases hok : o.1 = k
        · right
          rw [if_pos hok] at hoe
          exact hoe.symm
        · left
          rw [if_neg hok] at hoe
          rw [← hoe]
          exact List.mem_cons_of_mem a ho
    · rw [if_neg hk] at he
      rcases List.mem_cons.mp he with h1 | h1
      · left; rw [h1]; exact List.mem_cons_self a t
      · rcases ih h1 with h2 | h2
        · left; exact List.mem_cons_of_mem a h2
        · right; exact h2

/-- The first entry of `mapSet m k v` with key `k` is the new one. -/
theorem find?_mapSet (m : FilterMap) (k : String) (v : ColumnFilter) :
    (mapSet m k v).find? (fun e => e.1 == k) = some (k, v) := by
  induction m with
  | nil => simp [mapSet, List.find?]
  | cons a t ih =>
    rw [mapSet_cons]
    by_cases hk : a.1 = k
    · rw [if_pos hk]
      simp [List.find?]
    · rw [if_neg hk]
      have hne : (a.1 == k) = false := by simp [hk]
      simp [List.find?_cons, hne, ih]

/-- C7: applying a filter with a whitespace-only value leaves the mapping
unchanged while closing the popup; otherwise the value is stored trimmed, and
a mapping whose stored values are all trimmed stays that way. -/
theorem handleApplyFilter_spec (st : FilterPopupState) (filters : FilterMap) :
    (handleApplyFilter st filters).2 = none
    ∧ (jsTrim st.tempFilterValue = "" →
        (handleApplyFilter st filters).1 = filters)
    ∧ (∀ col, st.openFilterColumn = some col →
        jsTrim st.tempFilterValue ≠ "" →
        (handleApplyFilter st filters).1.find? (fun e => e.1 == col)
          = some (col,
              { columnName := col, operator := st.tempFilterOperator,
                value := jsTrim st.tempFilterValue }))
    ∧ (FilterMapTrimmed filters →
        FilterMapTrimmed (handleApplyFilter st filters).1) := by
  rcases hoc : st.openFilterColumn with _ | col
  · refine ⟨by simp [handleApplyFilter, hoc], ?_, ?_, ?_⟩
    · intro _
      simp [handleApplyFilter, hoc]
    · intro col hcol
      exact absurd hcol (by simp)
    · intro ht
      simpa [handleApplyFilter, hoc] using ht
  · by_cases hv : jsTrim st.tempFilterValue = ""
    · refine ⟨by simp [handleApplyFilter, hoc, hv], ?_, ?_, ?_⟩
      · intro _
        simp [handleApplyFilter, hoc, hv]
      · intro col2 _ hne
        exact absurd hv hne
      · intro ht
        simpa [handleApplyFilter, hoc, hv] using ht
    · have happ : handleApplyFilter st filters
          = (mapSet filters col
              { columnName := col, operator := st.tempFilterOperator,
                value := jsTrim st.tempFilterValue }, none) := by
        simp [handleApplyFilter, hoc, hv]
      refine ⟨by rw [happ], ?_, ?_, ?_⟩
      · intro h
        exact absurd h hv
      · intro col2 hcol2 _
        have : col = col2 := by
          injection hcol2
        subst this
        rw [happ]
        exact find?_mapSet filters col _
      · intro ht e he
        rw [happ] at he
        rcases mem_mapSet _ _ _ _ he with h1 | h1
        · exact ht e h1
        · rw [h1]
          exact jsTrim_idem st.tempFilterValue

/-- Witness for C7: applying a whitespace-only value over the scenario
mapping changes nothing and closes the popup, and applying the value
" Bob " stores it trimmed to "Bob". -/
theorem handleApplyFilter_spec_witness :
    (handleApplyFilter
        { openFilterColumn := some "Status",
          tempFilterOperator := "Contains", tempFilterValue := "  " }
        scenarioFilters).1 = scenarioFilters
    ∧ (handleApplyFilter
        { openFilterColumn := some "Status",
          tempFilterOperator := "Contains", tempFilterValue := "  " }
        scenarioFilters).2 = none
    ∧ (handleApplyFilter
        { openFilterColumn := some "Name",
          tempFilterOperator := "Equals", tempFilterValue := " Bob " }
        []).1.find? (fun e => e.1 == "Name")
        = some ("Name",
            { columnName := "Name", operator := "Equals",
              value := jsTrim " Bob " }) := by
  have h1 := handleApplyFilter_spec
    { openFilterColumn := some "Status",
      tempFilterOperator := "Contains", tempFilterValue := "  " }
    scenarioFilters
  have h2 := handleApplyFilter_spec
    { openFilterColumn := some "Name",
      tempFilterOperator := "Equals", tempFilterValue := " Bob " } []
  exact ⟨h1.2.1 (by decide), h1.1, h2.2.2.1 "Name" rfl (by decide)⟩

/-- C8 counterexample: on the false-to-true refresh edge the first rendered
state pairs the already-cleared sort state with the still-active old filter
mapping, so a derived view is rendered from a mixture of old and cleared
state — the clearing is not one atomic state transition. -/
theorem refresh_mixed_render_counterexample :
    (refreshRenderSequence true gridRefreshExample localRefreshExample).head?
      = some (updateViewRefresh true gridRefreshExample, localRefreshExample)
    ∧ (updateViewRefresh true gridRefreshExample).currentSortColumn = none
    ∧ localRefreshExample.columnFilters ≠ [] := by decide

/-- C8 amended: the refresh reaction is edge-triggered — a sustained true and
a steady false leave all state in place, a falling edge only records the flag
— and on the false-to-true edge the final rendered state has host state
(selections, page, sort) and component-local state (filters, widths, resize
session, popup) fully cleared; the clearing however happens in two steps,
with the host state cleared synchronously in updateView and the local state
cleared by the effect after the next render. -/
theorem refresh_edge_amended (g : GridHostState) (t : LocalViewState) :
    (g.previousRefreshValue = true →
      refreshRenderSequence true g t = [(g, t)])
    ∧ (g.previousRefreshValue = false →
        refreshRenderSequence false g t = [(g, t)])
    ∧ (g.previousRefreshValue = true →
        refreshRenderSequence false g t
          = [({ g with previousRefreshValue := false }, t),
             ({ g with previousRefreshValue := false }, t)])
    ∧ (g.previousRefreshValue = false →
        refreshRenderSequence true g t
          = [(clearedGridHostState, t),
             (clearedGridHostState, clearedLocalViewState)]) := by
  obtain ⟨sel, link, page, scol, sdir, prev⟩ := g
  refine ⟨?_, ?_, ?_, ?_⟩ <;> intro h <;> simp only at h <;> subst h <;>
    simp [refreshRenderSequence, updateViewRefresh, refreshEffect,
      clearedGridHostState]

/-- Witness for C8 amended at the concrete pre-refresh states: the rising
edge renders the mixed state once and then the fully cleared state. -/
theorem refresh_edge_amended_witness :
    refreshRenderSequence true gridRefreshExample localRefreshExample
      = [(clearedGridHostState, localRefreshExample),
         (clearedGridHostState, clearedLocalViewState)] :=
  (refresh_edge_amended gridRefreshExample localRefreshExample).2.2.2 rfl

/-- A status lookup misses exactly when no entry of any category matches the
value exactly or case-insensitively. -/
theorem lookupStatus_eq_none_iff (nv : String)
    (defs : List (String × List (String × StatusStyle))) :
    lookupStatus nv defs = none ↔
      ∀ cat ∈ defs, ∀ e ∈ cat.2,
        ¬(e.1 = nv ∨ jsToLower e.1 = jsToLower nv) := by
  induction defs with
  | nil => simp [lookupStatus]
  | cons c rest ih =>
    obtain ⟨cname, category⟩ := c
    have hcons : lookupStatus nv ((cname, category) :: rest) = none ↔
        category.find? (fun e => e.1 == nv) = none
        ∧ category.find? (fun e => jsToLower e.1 == jsToLower nv) = none
        ∧ lookupStatus nv rest = none := by
      cases hf1 : category.find? (fun e => e.1 == nv) with
      | some e => simp [lookupStatus, hf1]
      | none =>
        cases hf2 : category.find?
            (fun e => jsToLower e.1 == jsToLower nv) with
        | some e => simp [lookupStatus, hf1, hf2]
        | none => simp [lookupStatus, hf1, hf2]
    rw [hcons, List.find?_eq_none, List.find?_eq_none, ih]
    constructor
    · rintro ⟨h1, h2, h3⟩ cat hcat e he
      rcases List.mem_cons.mp hcat with hc1 | hc1
      · subst hc1
        rintro (hx | hx)
        · exact h1 e he (by simp [hx])
        · exact h2 e he (by simp [hx])
      · exact h3 cat hc1 e he
    · intro hall
      refine ⟨?_, ?_, ?_⟩
      · intro e he hbe
        exact hall _ (List.mem_cons_self _ _) e he (Or.inl (by simpa using hbe))
      · intro e he hbe
        exact hall _ (List.mem_cons_self _ _) e he (Or.inr (by simpa using hbe))
      · intro cat hcat e he
        exact hall cat (List.mem_cons_of_mem _ hcat) e he

/-- C9: the status classifier is a pure lookup: column eligibility is exactly
the case-insensitive keyword-substring test; the icon lookup over the fixed
table returns null exactly when no entry matches the trimmed value exactly or
case-insensitively; OrderStatus/Shipped yields the order-status icon while
the Description column is never classified. -/
theorem statusClassifier_spec :
    (∀ cn : String,
      isStatusColumn cn
        = statusKeywords.any (fun kw => jsIncludes (jsToLower cn) kw))
    ∧ (∀ v : String,
        getStatusStyle v = none ↔
          ∀ cat ∈ STATUS_DEFINITIONS, ∀ e ∈ cat.2,
            ¬(e.1 = jsTrim v ∨ jsToLower e.1 = jsToLower (jsTrim v)))
    ∧ classify "OrderStatus" "Shipped" = some { icon := "📦" }
    ∧ isStatusColumn "Description" = false
    ∧ classify "Description" "Shipped" = none := by
  refine ⟨?_, ?_, by decide, by decide, by decide⟩
  · intro cn
    by_cases hcn : cn = ""
    · subst hcn
      decide
    · rw [isStatusColumn, if_neg hcn]
  · intro v
    by_cases hv : v = ""
    · subst hv
      constructor
      · intro _
        decide
      · intro _
        rfl
    · rw [getStatusStyle, if_neg hv]
      exact lookupStatus_eq_none_iff (jsTrim v) STATUS_DEFINITIONS

/-- C10: each public output is the empty string exactly when its backing list
is empty — not the JSON text of an empty array, which would be "[]" — and the
JSON serialization of the list otherwise; a JSON array serialization is never
the empty string. -/
theorem getOutputs_empty_spec (sel links : List RecordJson) :
    (sel = [] → (getOutputs sel links).SelectedRecordIds = "")
    ∧ (links = [] → (getOutputs sel links).SelectedLinkRecords = "")
    ∧ (sel ≠ [] → (getOutputs sel links).SelectedRecordIds
        = jsonStringifyRecords sel)
    ∧ (links ≠ [] → (getOutputs sel links).SelectedLinkRecords
        = jsonStringifyRecords links)
    ∧ jsonStringifyRecords [] = "[]"
    ∧ jsonStringifyRecords sel ≠ "" := by
  have hdata : (jsonStringifyRecords sel).data
      = '[' :: ((String.intercalate "," (sel.map jsonObject)).data
          ++ [']']) := by
    show (("[" ++ String.intercalate "," (sel.map jsonObject)) ++ "]").data
      = _
    rw [String.data_append, String.data_append]
    rfl
  refine ⟨?_, ?_, ?_, ?_, by decide, ?_⟩
  · intro h
    subst h
    simp [getOutputs]
  · intro h
    subst h
    simp [getOutputs]
  · intro h
    cases sel with
    | nil => exact absurd rfl h
    | cons a t => simp [getOutputs]
  · intro h
    cases links with
    | nil => exact absurd rfl h
    | cons a t => simp [getOutputs]
  · intro hc
    have h2 := congrArg String.data hc
    rw [hdata] at h2
    simp at h2

/-- Witness for C10: an empty selection outputs the empty string and a
one-record selection outputs its JSON serialization. -/
theorem getOutputs_empty_spec_witness :
    (getOutputs [] []).SelectedRecordIds = ""
    ∧ (getOutputs [[("recordId", "1")]] []).SelectedRecordIds
        = jsonStringifyRecords [[("recordId", "1")]] :=
  ⟨(getOutputs_empty_spec [] []).1 rfl,
    (getOutputs_empty_spec [[("recordId", "1")]] []).2.2.1 (by simp)⟩
